import Mathlib

/-!
Verification of the plane-shapes learning app (`src/app.py`).

The in-scope core consists of:
* the Geometry Engine: `draw_triangle`, `draw_parallelogram`, `draw_rectangle`,
  `draw_circle` — pure functions from scalar parameters to vertex coordinates;
* the Quiz Session State: score/total counters plus per-question answered
  flags, mutated by the submit handlers of the quiz tab.

Floating-point numbers of the source are modelled as real numbers; the
Python `math` functions map to their `Real` counterparts.
-/

namespace PlaneShapes

/-- Python `math.radians`: degrees to radians, `x * (pi / 180)`. -/
noncomputable def radians (deg : ℝ) : ℝ := deg * (Real.pi / 180)

/-- Python `math.degrees`: radians to degrees, `x * (180 / pi)`. -/
noncomputable def degrees (rad : ℝ) : ℝ := rad * (180 / Real.pi)

/-- Python `math.atan2 y x`: the angle of the point `(x, y)` in `(-pi, pi]`. -/
noncomputable def atan2 (y x : ℝ) : ℝ :=
  if 0 < x then Real.arctan (y / x)
  else if x < 0 then
    (if 0 ≤ y then Real.arctan (y / x) + Real.pi else Real.arctan (y / x) - Real.pi)
  else
    (if 0 < y then Real.pi / 2 else if y < 0 then -(Real.pi / 2) else 0)

/-- `draw_triangle` from `src/app.py` (lines 54-82): converts the two base
angles to radians, returns `none` when the third angle `gamma` is not
positive, otherwise applies the law of sines and returns the vertices
`A = (0,0)`, `B = (c,0)`, `C = (b*cos alpha, b*sin alpha)`. -/
noncomputable def draw_triangle (base alpha_deg beta_deg : ℝ) :
    Option (List (ℝ × ℝ)) :=
  let alpha := radians alpha_deg
  let beta := radians beta_deg
  let gamma := radians (180 - alpha_deg - beta_deg)
  if gamma ≤ 0 then none
  else
    let c := base
    let s := c / Real.sin gamma
    let b := s * Real.sin beta
    some [((0 : ℝ), (0 : ℝ)), (c, 0), (b * Real.cos alpha, b * Real.sin alpha)]

/-- `draw_parallelogram` from `src/app.py` (lines 85-99): horizontal shear
`dx = height / tan(angle)` guarded by `|tan(angle)| > 1e-6`, vertices
`A, B, C, D` in order. -/
noncomputable def draw_parallelogram (width height angle_deg : ℝ) :
    List (ℝ × ℝ) :=
  let angle := radians angle_deg
  let dx := if |Real.tan angle| > 1 / 1000000 then height / Real.tan angle else 0
  [((0 : ℝ), (0 : ℝ)), (width, 0), (width + dx, height), (dx, height)]

/-- `draw_rectangle` from `src/app.py` (lines 102-108). -/
def draw_rectangle (width height : ℝ) : List (ℝ × ℝ) :=
  [((0 : ℝ), (0 : ℝ)), (width, 0), (width, height), (0, height)]

/-- `numpy.linspace a b num` with the default inclusive endpoint: `num`
points `a + (b - a) * k / (num - 1)` for `k = 0, ..., num - 1`. -/
noncomputable def linspace (a b : ℝ) (num : ℕ) : List ℝ :=
  (List.range num).map (fun (k : ℕ) => a + (b - a) * (k : ℝ) / ((num - 1 : ℕ) : ℝ))

/-- `draw_circle` from `src/app.py` (lines 111-116): samples `num_points`
angles over `[0, 2*pi]` with `numpy.linspace` and returns the lists of
x- and y-coordinates. -/
noncomputable def draw_circle (radius : ℝ) (num_points : ℕ) :
    List ℝ × List ℝ :=
  let thetas := linspace 0 (2 * Real.pi) num_points
  (thetas.map (fun θ => radius * Real.cos θ),
   thetas.map (fun θ => radius * Real.sin θ))

/-- The rhombus branch of tab 1 (`src/app.py` lines 191-198): the tilt angle
is `degrees (atan2 height (side / 2))`, with the second argument replaced by
`1` when `side = 0`, and the outline is the parallelogram for that tilt. -/
noncomputable def rhombus_branch (side height : ℝ) : List (ℝ × ℝ) :=
  let angle_for_rhombus := degrees (atan2 height (if side ≠ 0 then side / 2 else 1))
  draw_parallelogram side height angle_for_rhombus

/-! ## Quiz session state (`src/app.py` lines 287-359) -/

/-- The session-scoped quiz state: cumulative `score` and `total` plus the
set of question identifiers already answered (the `answered_*` flags of
`st.session_state`). Counters only ever increase from `0`, so they are
modelled as naturals. -/
structure QuizSessionState where
  score : Nat
  total : Nat
  answered : List String
deriving DecidableEq

/-- Initial state created at session start (`src/app.py` lines 288-291):
`score = 0`, `total = 0`, no answered flags. -/
def initState : QuizSessionState := ⟨0, 0, []⟩

/-- Whether question `q` has an answered flag set
(`st.session_state.get(answered_key, False)`). -/
def isAnswered (s : QuizSessionState) (q : String) : Bool :=
  s.answered.contains q

/-- The submit handlers (`src/app.py` lines 319-330 and 345-359): on the
first submission for a question id, increment `total`, set the answered
flag, and increment `score` iff the answer is correct, reporting `true`
(accepted); on a repeat submission, mutate nothing and report `false`. -/
def submitAnswer (s : QuizSessionState) (q : String) (isCorrect : Bool) :
    QuizSessionState × Bool :=
  if isAnswered s q then (s, false)
  else
    ({ score := if isCorrect then s.score + 1 else s.score,
       total := s.total + 1,
       answered := q :: s.answered }, true)

/-- Modelled from the spec: `reset()` is not present in `src/app.py` (a fresh
session re-runs the initialization of lines 288-291 instead); per spec §4.3
it clears all answered flags and resets `score = 0, total = 0`. -/
def reset (_s : QuizSessionState) : QuizSessionState := initState

/-- Running a finite sequence of submissions, keeping only the state. -/
def runSubmissions (s : QuizSessionState) (subs : List (String × Bool)) :
    QuizSessionState :=
  subs.foldl (fun st p => (submitAnswer st p.1 p.2).1) s

/-- A concrete question identifier, used in witness statements. -/
def qid1 : String := "q1"

/-- Euclidean distance between two points, as recomputed from coordinates
(the `dist` helper of `src/app.py` lines 172-173 uses `math.hypot`). -/
noncomputable def dist2D (p q : ℝ × ℝ) : ℝ :=
  Real.sqrt ((q.1 - p.1) ^ 2 + (q.2 - p.2) ^ 2)

/-- Interior angle at vertex `p` of the triangle `p q r`, recomputed from
the coordinates as the arccosine of the normalized dot product. -/
noncomputable def angleAt (p q r : ℝ × ℝ) : ℝ :=
  Real.arccos (((q.1 - p.1) * (r.1 - p.1) + (q.2 - p.2) * (r.2 - p.2)) /
    (dist2D p q * dist2D p r))

/-- The property claimed of `draw_circle radius 80`: exactly 80 x- and
y-samples, the `k`-th point is `(radius*cos θ, radius*sin θ)` at the evenly
spaced angle `θ = 2*pi*k/79`, every point lies on the circle
`x^2 + y^2 = radius^2`, consecutive angles differ by the constant
`2*pi/79`, and the final angle is `2*pi`, closing the outline back at the
starting point. -/
def circle_claim (radius : ℝ) : Prop :=
  (draw_circle radius 80).1.length = 80 ∧
  (draw_circle radius 80).2.length = 80 ∧
  (draw_circle radius 80).1 =
    (List.range 80).map (fun (k : ℕ) => radius * Real.cos (2 * Real.pi * (k : ℝ) / 79)) ∧
  (draw_circle radius 80).2 =
    (List.range 80).map (fun (k : ℕ) => radius * Real.sin (2 * Real.pi * (k : ℝ) / 79)) ∧
  (∀ k : ℕ, (radius * Real.cos (2 * Real.pi * (k : ℝ) / 79)) ^ 2 +
      (radius * Real.sin (2 * Real.pi * (k : ℝ) / 79)) ^ 2 = radius ^ 2) ∧
  (∀ k : ℕ, 2 * Real.pi * ((k : ℝ) + 1) / 79 - 2 * Real.pi * (k : ℝ) / 79 =
      2 * Real.pi / 79) ∧
  2 * Real.pi * ((79 : ℕ) : ℝ) / 79 = 2 * Real.pi ∧
  radius * Real.cos (2 * Real.pi * ((79 : ℕ) : ℝ) / 79) = radius * Real.cos 0 ∧
  radius * Real.sin (2 * Real.pi * ((79 : ℕ) : ℝ) / 79) = radius * Real.sin 0

/-- The property claimed of `draw_triangle` on valid inputs: the returned
vertices are exactly `A = (0,0)`, `B = (base, 0)` and
`C = (b*cos alpha, b*sin alpha)` with `b = (base / sin gamma) * sin beta`
and `gamma = radians (180 - alpha_deg - beta_deg)`, in order `A, B, C`; the
side lengths recomputed from the coordinates are `s*sin gamma`, `s*sin
alpha`, `s*sin beta` (the law of sines: every side over the sine of its
opposite angle equals `s = base / sin gamma`), and the interior angle
recomputed at each vertex equals the corresponding input angle in
radians. -/
def triangle_claim (base alpha_deg beta_deg : ℝ) : Prop :=
  let α' := radians alpha_deg
  let β' := radians beta_deg
  let γ' := radians (180 - alpha_deg - beta_deg)
  let s := base / Real.sin γ'
  let b := s * Real.sin β'
  let A : ℝ × ℝ := (0, 0)
  let B : ℝ × ℝ := (base, 0)
  let C : ℝ × ℝ := (b * Real.cos α', b * Real.sin α')
  draw_triangle base alpha_deg beta_deg = some [A, B, C] ∧
  dist2D A B = s * Real.sin γ' ∧
  dist2D B C = s * Real.sin α' ∧
  dist2D C A = s * Real.sin β' ∧
  dist2D B C / Real.sin α' = dist2D C A / Real.sin β' ∧
  dist2D C A / Real.sin β' = dist2D A B / Real.sin γ' ∧
  angleAt A B C = α' ∧
  angleAt B A C = β' ∧
  angleAt C A B = γ'

/-! ## Helper lemmas for the quiz state -/

theorem submitAnswer_score_le_total (s : QuizSessionState) (q : String)
    (c : Bool) (h : s.score ≤ s.total) :
    ((submitAnswer s q c).1).score ≤ ((submitAnswer s q c).1).total := by
  unfold submitAnswer
  by_cases ha : isAnswered s q = true
  · simp [ha, h]
  · cases c <;> simp [ha] <;> omega

theorem submitAnswer_score_mono (s : QuizSessionState) (q : String) (c : Bool) :
    s.score ≤ ((submitAnswer s q c).1).score := by
  unfold submitAnswer
  by_cases ha : isAnswered s q = true
  · simp [ha]
  · cases c <;> simp [ha]

theorem submitAnswer_total_mono (s : QuizSessionState) (q : String) (c : Bool) :
    s.total ≤ ((submitAnswer s q c).1).total := by
  unfold submitAnswer
  by_cases ha : isAnswered s q = true
  · simp [ha]
  · cases c <;> simp [ha]

theorem runSubmissions_score_le_total (subs : List (String × Bool))
    (s : QuizSessionState) (h : s.score ≤ s.total) :
    (runSubmissions s subs).score ≤ (runSubmissions s subs).total := by
  induction subs generalizing s with
  | nil => exact h
  | cons p rest ih =>
      exact ih _ (submitAnswer_score_le_total s p.1 p.2 h)

theorem runSubmissions_score_mono (subs : List (String × Bool))
    (s : QuizSessionState) :
    s.score ≤ (runSubmissions s subs).score := by
  induction subs generalizing s with
  | nil => exact le_rfl
  | cons p rest ih =>
      exact le_trans (submitAnswer_score_mono s p.1 p.2) (ih _)

theorem runSubmissions_total_mono (subs : List (String × Bool))
    (s : QuizSessionState) :
    s.total ≤ (runSubmissions s subs).total := by
  induction subs generalizing s with
  | nil => exact le_rfl
  | cons p rest ih =>
      exact le_trans (submitAnswer_total_mono s p.1 p.2) (ih _)

/-! ## Claim theorems: quiz session state -/

/-- C2: `reset()`, called in any state, clears every question's answered
flag and sets `score = 0` and `total = 0`. -/
theorem reset_clears_state (s : QuizSessionState) :
    (reset s).score = 0 ∧ (reset s).total = 0 ∧
    ∀ q : String, isAnswered (reset s) q = false :=
  ⟨rfl, rfl, fun _ => rfl⟩

/-- C3: the first submission for a question id is accepted, marks it
answered, increments `total` by 1 and `score` by 1 iff correct; a repeat
submission for an answered id mutates nothing and is not accepted; an
answered flag, once set, survives any further submission. -/
theorem submitAnswer_once (s : QuizSessionState) (q : String) (c : Bool) :
    (isAnswered s q = false →
      (submitAnswer s q c).2 = true ∧
      isAnswered (submitAnswer s q c).1 q = true ∧
      ((submitAnswer s q c).1).total = s.total + 1 ∧
      ((submitAnswer s q c).1).score = s.score + (if c then 1 else 0)) ∧
    (isAnswered s q = true → submitAnswer s q c = (s, false)) ∧
    (∀ q' : String, isAnswered s q' = true →
      isAnswered (submitAnswer s q c).1 q' = true) := by
  refine ⟨?_, ?_, ?_⟩
  · intro h
    unfold submitAnswer
    rw [h]
    cases c <;> simp [isAnswered]
  · intro h
    unfold submitAnswer
    rw [h]
    simp
  · intro q' h
    unfold submitAnswer
    by_cases ha : isAnswered s q = true
    · simpa [ha] using h
    · simp only [ha, Bool.false_eq_true, if_false]
      simp only [isAnswered, List.contains_cons]
      simp only [isAnswered] at h
      rw [h]
      simp

/-- Witness for C3 at a concrete session: question `"q1"` starts unanswered;
the first (correct) submission is accepted and sets `score = total = 1`; the
second submission for `"q1"` is rejected and leaves the state unchanged. -/
theorem submitAnswer_once_witness :
    (isAnswered initState qid1 = false ∧
      (submitAnswer initState qid1 true).2 = true ∧
      isAnswered (submitAnswer initState qid1 true).1
        qid1 = true ∧
      ((submitAnswer initState qid1 true).1).total =
        initState.total + 1 ∧
      ((submitAnswer initState qid1 true).1).score =
        initState.score + 1) ∧
    submitAnswer (submitAnswer initState qid1 true).1
        qid1 false =
      ((submitAnswer initState qid1 true).1, false) := by
  have h0 : isAnswered initState qid1 = false := rfl
  have h1 := (submitAnswer_once initState qid1 true).1 h0
  have h2 :=
    (submitAnswer_once (submitAnswer initState qid1 true).1
      qid1 false).2.1 h1.2.1
  exact ⟨⟨h0, h1.1, h1.2.1, h1.2.2.1, by simpa using h1.2.2.2⟩, h2⟩

/-- C4: starting from the initial state, after every finite sequence of
submissions `0 ≤ score ≤ total` holds, and neither `score` nor `total`
ever decreases along any sequence from any state. -/
theorem quiz_invariant (subs : List (String × Bool)) :
    (0 ≤ (runSubmissions initState subs).score ∧
      (runSubmissions initState subs).score ≤
        (runSubmissions initState subs).total) ∧
    (∀ (s : QuizSessionState) (more : List (String × Bool)),
      s.score ≤ (runSubmissions s more).score ∧
      s.total ≤ (runSubmissions s more).total) :=
  ⟨⟨Nat.zero_le _, runSubmissions_score_le_total subs initState le_rfl⟩,
   fun s more =>
    ⟨runSubmissions_score_mono more s, runSubmissions_total_mono more s⟩⟩

/-! ## Helper lemmas for the geometry engine -/

theorem radians_pos {deg : ℝ} (h : 0 < deg) : 0 < radians deg := by
  unfold radians
  have hpi : 0 < Real.pi := Real.pi_pos
  positivity

theorem radians_nonpos {deg : ℝ} (h : deg ≤ 0) : radians deg ≤ 0 := by
  unfold radians
  have hpi : 0 < Real.pi := Real.pi_pos
  have h180 : 0 < Real.pi / 180 := by positivity
  exact mul_nonpos_of_nonpos_of_nonneg h h180.le

theorem radians_lt_pi {deg : ℝ} (h : deg < 180) : radians deg < Real.pi := by
  unfold radians
  have hpi : 0 < Real.pi := Real.pi_pos
  have h180 : 0 < Real.pi / 180 := by positivity
  calc deg * (Real.pi / 180) < 180 * (Real.pi / 180) := by
        exact mul_lt_mul_of_pos_right h h180
    _ = Real.pi := by field_simp

/-! ## Claim theorems: geometry engine -/

/-- C5: whenever `angleA + angleB ≥ 180` degrees, `draw_triangle` returns
`none` (the degenerate-triangle failure) and never vertex coordinates. -/
theorem draw_triangle_degenerate (base alpha_deg beta_deg : ℝ)
    (h : 180 ≤ alpha_deg + beta_deg) :
    draw_triangle base alpha_deg beta_deg = none := by
  unfold draw_triangle
  rw [if_pos]
  exact radians_nonpos (by linarith)

/-- Witness for C5: `draw_triangle 4 100 80` hits the degenerate branch. -/
theorem draw_triangle_degenerate_witness :
    (180 : ℝ) ≤ 100 + 80 ∧ draw_triangle 4 100 80 = none :=
  ⟨by norm_num, draw_triangle_degenerate 4 100 80 (by norm_num)⟩

/-- C8: when the tilt angle's tangent is at most `1e-6` in absolute value
(in particular at tilt `0`), the parallelogram's shear offset is `0` and its
outline coincides with the rectangle outline
`[(0,0), (width,0), (width,height), (0,height)]`. -/
theorem draw_parallelogram_degenerates_to_rectangle
    (width height angle_deg : ℝ) (hw : 0 < width) (hh : 0 < height)
    (ht : |Real.tan (radians angle_deg)| ≤ 1 / 1000000) :
    draw_parallelogram width height angle_deg = draw_rectangle width height ∧
    draw_parallelogram width height angle_deg =
      [((0 : ℝ), (0 : ℝ)), (width, 0), (width, height), (0, height)] := by
  have hdx : draw_parallelogram width height angle_deg =
      [((0 : ℝ), (0 : ℝ)), (width, 0), (width, height), (0, height)] := by
    simp only [draw_parallelogram]
    rw [if_neg (not_lt.mpr ht)]
    norm_num
  exact ⟨hdx.trans rfl, hdx⟩

/-- Witness for C8: at width `4`, height `2`, tilt `0` the parallelogram is
the `4 × 2` rectangle. -/
theorem draw_parallelogram_degenerates_witness :
    ((0 : ℝ) < 4 ∧ (0 : ℝ) < 2 ∧ |Real.tan (radians 0)| ≤ 1 / 1000000) ∧
    (draw_parallelogram 4 2 0 = draw_rectangle 4 2 ∧
      draw_parallelogram 4 2 0 =
        [((0 : ℝ), (0 : ℝ)), (4, 0), (4, 2), (0, 2)]) := by
  have h0 : radians 0 = 0 := by simp [radians]
  have ht : |Real.tan (radians 0)| ≤ 1 / 1000000 := by
    rw [h0, Real.tan_zero, abs_zero]; norm_num
  exact ⟨⟨by norm_num, by norm_num, ht⟩,
    draw_parallelogram_degenerates_to_rectangle 4 2 0 (by norm_num)
      (by norm_num) ht⟩

/-- C9: the rhombus outline is the parallelogram outline for width
`sideLength` and tilt `atan2 height (sideLength / 2)` converted to degrees,
with `1` substituted for the zero quantity when `sideLength = 0`. -/
theorem rhombus_branch_eq_parallelogram (side height : ℝ) :
    rhombus_branch side height =
      draw_parallelogram side height
        (degrees (atan2 height (if side = 0 then 1 else side / 2))) := by
  unfold rhombus_branch
  by_cases hs : side = 0 <;> simp [hs]

/-- C1 counterexample: the geometry functions do compute coordinates on
non-positive dimensions and angles — `draw_rectangle` with width `-1`
returns the four corners, and `draw_triangle` with `angleA = -10` returns a
vertex list rather than any typed error (no error type exists in the code). -/
theorem no_validation_counterexample :
    draw_rectangle (-1) 2 = [((0 : ℝ), (0 : ℝ)), (-1, 0), (-1, 2), (0, 2)] ∧
    (draw_triangle 4 (-10) 100).isSome = true := by
  constructor
  · rfl
  · unfold draw_triangle
    rw [if_neg]
    · rfl
    · push_neg
      exact radians_pos (by norm_num)

/-- C1 amended: the code performs no positivity validation at all —
for every width and height (including non-positive ones) `draw_rectangle`
returns the four corner coordinates, and for every base and angles with
`angleA + angleB < 180` (including non-positive base or angles)
`draw_triangle` returns a vertex list; the only guard in the geometry
engine is the degenerate-triangle check. -/
theorem no_dimension_or_angle_validation (width height base alpha_deg beta_deg : ℝ)
    (hsum : alpha_deg + beta_deg < 180) :
    draw_rectangle width height =
      [((0 : ℝ), (0 : ℝ)), (width, 0), (width, height), (0, height)] ∧
    ∃ l, draw_triangle base alpha_deg beta_deg = some l := by
  refine ⟨rfl, ?_⟩
  unfold draw_triangle
  rw [if_neg]
  · exact ⟨_, rfl⟩
  · push_neg
    exact radians_pos (by linarith)

/-- Witness for the amended C1 at invalid inputs: width `-1` and
`angleA = -10` still produce coordinate lists. -/
theorem no_dimension_or_angle_validation_witness :
    ((-1 : ℝ) ≤ 0 ∧ (-10 : ℝ) ≤ 0 ∧ (-10 : ℝ) + 100 < 180) ∧
    (draw_rectangle (-1) 2 =
        [((0 : ℝ), (0 : ℝ)), (-1, 0), (-1, 2), (0, 2)] ∧
      ∃ l, draw_triangle 4 (-10) 100 = some l) :=
  ⟨by norm_num,
   no_dimension_or_angle_validation (-1) 2 4 (-10) 100 (by norm_num)⟩

theorem linspace_zero_two_pi_80 :
    linspace 0 (2 * Real.pi) 80 =
      (List.range 80).map (fun (k : ℕ) => 2 * Real.pi * (k : ℝ) / 79) := by
  unfold linspace
  refine List.map_congr_left ?_
  intro k hk
  norm_num

/-- C7: for every positive radius, `draw_circle` with 80 sample points
produces exactly 80 points of the form `(radius*cos θ, radius*sin θ)` at
evenly spaced angles `θ = 2*pi*k/79`, all on the circle of that radius,
with the closing angle `2*pi` returning to the start. -/
theorem draw_circle_spec (radius : ℝ) (hr : 0 < radius) :
    circle_claim radius := by
  have hx : (draw_circle radius 80).1 =
      (List.range 80).map
        (fun (k : ℕ) => radius * Real.cos (2 * Real.pi * (k : ℝ) / 79)) := by
    simp only [draw_circle, linspace_zero_two_pi_80, List.map_map]
    rfl
  have hy : (draw_circle radius 80).2 =
      (List.range 80).map
        (fun (k : ℕ) => radius * Real.sin (2 * Real.pi * (k : ℝ) / 79)) := by
    simp only [draw_circle, linspace_zero_two_pi_80, List.map_map]
    rfl
  have h79 : 2 * Real.pi * ((79 : ℕ) : ℝ) / 79 = 2 * Real.pi := by
    push_cast
    ring
  refine ⟨?_, ?_, hx, hy, ?_, ?_, h79, ?_, ?_⟩
  · rw [hx]; simp
  · rw [hy]; simp
  · intro k
    linear_combination radius ^ 2 *
      Real.sin_sq_add_cos_sq (2 * Real.pi * (k : ℝ) / 79)
  · intro k
    ring
  · rw [h79, Real.cos_two_pi, Real.cos_zero]
  · rw [h79, Real.sin_two_pi, Real.sin_zero]

/-- Witness for C7 at radius `2`. -/
theorem draw_circle_spec_witness : (0 : ℝ) < 2 ∧ circle_claim 2 :=
  ⟨by norm_num, draw_circle_spec 2 (by norm_num)⟩

/-- C10: for angles with `angleA > 0`, `angleB > 0` and
`angleA + angleB < 180`, the degenerate guard `gamma ≤ 0` is not taken,
`sin gamma` is strictly positive — so the division `base / sin gamma` has a
nonzero denominator — and a 3-vertex list is returned for every base. -/
theorem draw_triangle_no_div_by_zero (base alpha_deg beta_deg : ℝ)
    (ha : 0 < alpha_deg) (hb : 0 < beta_deg)
    (hsum : alpha_deg + beta_deg < 180) :
    ¬ radians (180 - alpha_deg - beta_deg) ≤ 0 ∧
    0 < Real.sin (radians (180 - alpha_deg - beta_deg)) ∧
    Real.sin (radians (180 - alpha_deg - beta_deg)) ≠ 0 ∧
    ∃ l, draw_triangle base alpha_deg beta_deg = some l ∧ l.length = 3 := by
  have hpos : 0 < radians (180 - alpha_deg - beta_deg) :=
    radians_pos (by linarith)
  have hlt : radians (180 - alpha_deg - beta_deg) < Real.pi :=
    radians_lt_pi (by linarith)
  have hsin : 0 < Real.sin (radians (180 - alpha_deg - beta_deg)) :=
    Real.sin_pos_of_pos_of_lt_pi hpos hlt
  refine ⟨not_le.mpr hpos, hsin, hsin.ne', ?_⟩
  unfold draw_triangle
  rw [if_neg (not_le.mpr hpos)]
  exact ⟨_, rfl, rfl⟩

/-- Witness for C10 at `base = 4`, `angleA = 50`, `angleB = 60`. -/
theorem draw_triangle_no_div_by_zero_witness :
    ((0 : ℝ) < 50 ∧ (0 : ℝ) < 60 ∧ (50 : ℝ) + 60 < 180) ∧
    (¬ radians (180 - 50 - 60) ≤ 0 ∧
      0 < Real.sin (radians (180 - 50 - 60)) ∧
      Real.sin (radians (180 - 50 - 60)) ≠ 0 ∧
      ∃ l, draw_triangle 4 50 60 = some l ∧ l.length = 3) :=
  ⟨by norm_num,
   draw_triangle_no_div_by_zero 4 50 60 (by norm_num) (by norm_num)
     (by norm_num)⟩

/-- C6: for every valid triangle input the vertices are exactly
`A = (0,0)`, `B = (base,0)`, `C = (b*cos alpha, b*sin alpha)` with
`b = (base / sin gamma) * sin beta`, in order `A, B, C`; the recomputed side
lengths satisfy the law of sines and the recomputed interior angles equal
the input angles (in radians). -/
theorem draw_triangle_valid_spec (base alpha_deg beta_deg : ℝ)
    (hbase : 0 < base) (ha : 0 < alpha_deg) (hb : 0 < beta_deg)
    (hsum : alpha_deg + beta_deg < 180) :
    triangle_claim base alpha_deg beta_deg := by
  simp only [triangle_claim]
  set α' := radians alpha_deg with hαdef
  set β' := radians beta_deg with hβdef
  set γ' := radians (180 - alpha_deg - beta_deg) with hγdef
  have hα'pos : 0 < α' := radians_pos ha
  have hα'lt : α' < Real.pi := radians_lt_pi (by linarith)
  have hβ'pos : 0 < β' := radians_pos hb
  have hβ'lt : β' < Real.pi := radians_lt_pi (by linarith)
  have hγ'pos : 0 < γ' := radians_pos (by linarith)
  have hγ'lt : γ' < Real.pi := radians_lt_pi (by linarith)
  have hsinα : 0 < Real.sin α' := Real.sin_pos_of_pos_of_lt_pi hα'pos hα'lt
  have hsinβ : 0 < Real.sin β' := Real.sin_pos_of_pos_of_lt_pi hβ'pos hβ'lt
  have hsinγ : 0 < Real.sin γ' := Real.sin_pos_of_pos_of_lt_pi hγ'pos hγ'lt
  set s := base / Real.sin γ' with hsdef
  set b := s * Real.sin β' with hbdef
  have hs : 0 < s := div_pos hbase hsinγ
  have hbpos : 0 < b := mul_pos hs hsinβ
  have hapos : 0 < s * Real.sin α' := mul_pos hs hsinα
  have hangsum : α' + β' + γ' = Real.pi := by
    rw [hαdef, hβdef, hγdef]
    simp only [radians]
    field_simp
    ring
  have hγeq : γ' = Real.pi - (α' + β') := by linarith
  have hsinγ_eq : Real.sin γ' =
      Real.sin α' * Real.cos β' + Real.cos α' * Real.sin β' := by
    rw [hγeq, Real.sin_pi_sub, Real.sin_add]
  have hcosγ_eq : Real.cos γ' =
      -(Real.cos α' * Real.cos β' - Real.sin α' * Real.sin β') := by
    rw [hγeq, Real.cos_pi_sub, Real.cos_add]
  have hbase_eq : base = s * Real.sin γ' := by
    rw [hsdef, div_mul_cancel₀ base hsinγ.ne']
  have dAB : dist2D (0, 0) (base, 0) = s * Real.sin γ' := by
    simp only [dist2D]
    rw [show (base - 0) ^ 2 + ((0 : ℝ) - 0) ^ 2 = base ^ 2 by ring,
      Real.sqrt_sq hbase.le]
    exact hbase_eq
  have dBA : dist2D (base, 0) (0, 0) = s * Real.sin γ' := by
    simp only [dist2D]
    rw [show ((0 : ℝ) - base) ^ 2 + ((0 : ℝ) - 0) ^ 2 = base ^ 2 by ring,
      Real.sqrt_sq hbase.le]
    exact hbase_eq
  have dAC : dist2D (0, 0) (b * Real.cos α', b * Real.sin α') = b := by
    simp only [dist2D]
    rw [show (b * Real.cos α' - 0) ^ 2 + (b * Real.sin α' - 0) ^ 2 = b ^ 2 by
      linear_combination b ^ 2 * Real.sin_sq_add_cos_sq α']
    exact Real.sqrt_sq hbpos.le
  have dCA : dist2D (b * Real.cos α', b * Real.sin α') (0, 0) = b := by
    simp only [dist2D]
    rw [show ((0 : ℝ) - b * Real.cos α') ^ 2 + ((0 : ℝ) - b * Real.sin α') ^ 2
        = b ^ 2 by linear_combination b ^ 2 * Real.sin_sq_add_cos_sq α']
    exact Real.sqrt_sq hbpos.le
  have keyBC : (b * Real.cos α' - base) ^ 2 + (b * Real.sin α' - 0) ^ 2 =
      (s * Real.sin α') ^ 2 := by
    rw [hbase_eq, hsinγ_eq, hbdef]
    linear_combination (s * Real.sin α') ^ 2 * Real.sin_sq_add_cos_sq β'
  have dBC : dist2D (base, 0) (b * Real.cos α', b * Real.sin α') =
      s * Real.sin α' := by
    simp only [dist2D]
    rw [keyBC]
    exact Real.sqrt_sq hapos.le
  have dCB : dist2D (b * Real.cos α', b * Real.sin α') (base, 0) =
      s * Real.sin α' := by
    simp only [dist2D]
    rw [show (base - b * Real.cos α') ^ 2 + ((0 : ℝ) - b * Real.sin α') ^ 2
        = (b * Real.cos α' - base) ^ 2 + (b * Real.sin α' - 0) ^ 2 by ring,
      keyBC]
    exact Real.sqrt_sq hapos.le
  refine ⟨?_, dAB, dBC, dCA, ?_, ?_, ?_, ?_, ?_⟩
  · unfold draw_triangle
    rw [if_neg (not_le.mpr hγ'pos)]
  · rw [dBC, dCA, hbdef, mul_div_assoc, mul_div_assoc,
      div_self hsinα.ne', div_self hsinβ.ne', mul_one]
  · rw [dCA, dAB, hbdef, mul_div_assoc, mul_div_assoc,
      div_self hsinβ.ne', div_self hsinγ.ne', mul_one]
  · simp only [angleAt, dAB, dAC]
    have hratio : ((base - 0) * (b * Real.cos α' - 0) +
        (0 - 0) * (b * Real.sin α' - 0)) / (s * Real.sin γ' * b) =
        Real.cos α' := by
      rw [div_eq_iff (by positivity : s * Real.sin γ' * b ≠ 0), hbase_eq]
      ring
    rw [hratio]
    exact Real.arccos_cos hα'pos.le hα'lt.le
  · simp only [angleAt, dBA, dBC]
    have hratio : ((0 - base) * (b * Real.cos α' - base) +
        (0 - 0) * (b * Real.sin α' - 0)) /
        (s * Real.sin γ' * (s * Real.sin α')) = Real.cos β' := by
      rw [div_eq_iff (by positivity : s * Real.sin γ' * (s * Real.sin α') ≠ 0),
        hbase_eq, hsinγ_eq, hbdef]
      ring
    rw [hratio]
    exact Real.arccos_cos hβ'pos.le hβ'lt.le
  · simp only [angleAt, dCA, dCB]
    have hratio : ((0 - b * Real.cos α') * (base - b * Real.cos α') +
        (0 - b * Real.sin α') * (0 - b * Real.sin α')) /
        (b * (s * Real.sin α')) = Real.cos γ' := by
      rw [div_eq_iff (by positivity : b * (s * Real.sin α') ≠ 0),
        hcosγ_eq, hbase_eq, hsinγ_eq, hbdef]
      ring
    rw [hratio]
    exact Real.arccos_cos hγ'pos.le hγ'lt.le

/-- Witness for C6 at `base = 4`, `angleA = 50`, `angleB = 60`. -/
theorem draw_triangle_valid_spec_witness :
    ((0 : ℝ) < 4 ∧ (0 : ℝ) < 50 ∧ (0 : ℝ) < 60 ∧ (50 : ℝ) + 60 < 180) ∧
    triangle_claim 4 50 60 :=
  ⟨by norm_num,
   draw_triangle_valid_spec 4 50 60 (by norm_num) (by norm_num)
     (by norm_num) (by norm_num)⟩

end PlaneShapes
